import Mathlib

/-!
Verification of the GeoViz Pro reservoir pipeline (src/app.py) against its
natural-language specification.

The embedding below translates the numerical core of the Streamlit script:
the extent/cell-area computation, the `np.nansum`-based volumetrics with
NaN-aware clamping, the `np.select` fluid classifier, the duplicate-averaging
`groupby` step, the `np.linspace`/`np.meshgrid` grid, and the control flow of
the main block (interpolation gate at `len(df) >= 4`, the uncaught failure of
the linear `griddata` retry on degenerate geometry, and the export-figure
preparation that references `grid_z` outside the branch that defines it).

Depths and coordinates are modelled as rationals; the grid of interpolated
depths is a list of `Option ℚ`, with `none` standing for NaN ("no estimate")
nodes, mirroring the NaN-propagation semantics of the numpy expressions
(`woc - nan = nan`, `nan < 0` is false, `np.nansum` skips NaN).
-/

namespace GeoViz

/-- A control point (X, Y, Z) as appended to `st.session_state['data_points']`. -/
structure Point where
  x : ℚ
  y : ℚ
  z : ℚ
deriving DecidableEq, Repr

/-- `l.foldl min a`: running minimum with initial value `a`. -/
def foldMin (a : ℚ) (l : List ℚ) : ℚ := l.foldl min a

/-- `l.foldl max a`: running maximum with initial value `a`. -/
def foldMax (a : ℚ) (l : List ℚ) : ℚ := l.foldl max a

/-- Pandas `.min()` over a column; 0 on an empty column (the script only
reaches these calls with non-empty data). -/
def minOf (l : List ℚ) : ℚ :=
  match l with
  | [] => 0
  | a :: r => foldMin a r

/-- Pandas `.max()` over a column; 0 on an empty column. -/
def maxOf (l : List ℚ) : ℚ :=
  match l with
  | [] => 0
  | a :: r => foldMax a r

/-- `df['X'].min()` (app.py line 154). -/
def x_min (df : List Point) : ℚ := minOf (df.map Point.x)

/-- `df['X'].max()` (app.py line 154). -/
def x_max (df : List Point) : ℚ := maxOf (df.map Point.x)

/-- `df['Y'].min()` (app.py line 155). -/
def y_min (df : List Point) : ℚ := minOf (df.map Point.y)

/-- `df['Y'].max()` (app.py line 155). -/
def y_max (df : List Point) : ℚ := maxOf (df.map Point.y)

/-- `df['Z'].min()` (app.py line 69). -/
def min_z (df : List Point) : ℚ := minOf (df.map Point.z)

/-- `df['Z'].max()` (app.py line 69). -/
def max_z (df : List Point) : ℚ := maxOf (df.map Point.z)

/-- Cell area of the 100×100 grid (app.py lines 156-160):
`dx = (x_max - x_min)/(nx-1)`, `dy = (y_max - y_min)/(ny-1)`, `cell_area = dx*dy`
with `nx, ny = 100, 100`. -/
def cell_area (df : List Point) : ℚ :=
  ((x_max df - x_min df) / (100 - 1)) * ((y_max df - y_min df) / (100 - 1))

/-- `np.nansum`: sum of a vector treating NaN entries as contributing zero. -/
def nansum (l : List (Option ℚ)) : ℚ := (l.map (fun o => o.getD 0)).sum

/-- Thickness above a contact, per node (app.py lines 164-165 and 169-170):
`thick = contact - grid_z; thick[thick < 0] = 0`. A NaN node stays NaN:
`contact - nan = nan` and `nan < 0` is false, so the clamp does not touch it. -/
def thick_above (g : List (Option ℚ)) (contact : ℚ) : List (Option ℚ) :=
  g.map (fun oz => oz.map (fun z => if contact - z < 0 then 0 else contact - z))

/-- `vol_total_res = np.nansum(thick_above_woc) * cell_area` (app.py line 166). -/
def vol_total_res (g : List (Option ℚ)) (woc ca : ℚ) : ℚ :=
  nansum (thick_above g woc) * ca

/-- `vol_gas_cap = np.nansum(thick_above_goc) * cell_area` (app.py line 171). -/
def vol_gas_cap (g : List (Option ℚ)) (goc ca : ℚ) : ℚ :=
  nansum (thick_above g goc) * ca

/-- `vol_oil_zone = max(0, vol_total_res - vol_gas_cap)` (app.py line 174). -/
def vol_oil_zone (g : List (Option ℚ)) (goc woc ca : ℚ) : ℚ :=
  max 0 (vol_total_res g woc ca - vol_gas_cap g goc ca)

/-- The spec's VolumeEstimate record (§3): the three scalars the engine
produces. -/
structure VolumeEstimate where
  gasCap : ℚ
  oilZone : ℚ
  totalReservoir : ℚ
deriving DecidableEq, Repr

/-- The spec's `computeVolumes(surface, cellArea, goc, woc)` boundary call,
assembled from the source formulas (app.py lines 162-174). -/
def computeVolumes (g : List (Option ℚ)) (ca goc woc : ℚ) : VolumeEstimate :=
  ⟨vol_gas_cap g goc ca, vol_oil_zone g goc woc ca, vol_total_res g woc ca⟩

/-- Fluid zone labels: the three `choices` of the `np.select` call plus its
`default='Unknown'` (app.py lines 212-214). -/
inductive FluidZoneLabel
  | gasCap
  | oilZone
  | aquifer
  | unknown
deriving DecidableEq, Repr

/-- The `np.select` fluid classification (app.py lines 207-214): conditions
are tested in order and the first true one wins; the default is Unknown.
`[Z < goc, goc <= Z <= woc, Z > woc] -> [Gas Cap, Oil Zone, Aquifer]`. -/
def fluidOf (z goc woc : ℚ) : FluidZoneLabel :=
  if z < goc then FluidZoneLabel.gasCap
  else if goc ≤ z ∧ z ≤ woc then FluidZoneLabel.oilZone
  else if woc < z then FluidZoneLabel.aquifer
  else FluidZoneLabel.unknown

/-- The sidebar inversion warning (app.py lines 78-79):
`if goc_input > woc_input: st.warning(...)`. -/
def gocWarningShown (goc woc : ℚ) : Bool := decide (goc > woc)

/-- The keys of `df.groupby(['X', 'Y'])` in first-occurrence order (the order
does not matter for any property below; only membership and count do). -/
def keysOf (df : List Point) : List (ℚ × ℚ) :=
  df.foldl (fun acc p => if (p.x, p.y) ∈ acc then acc else acc ++ [(p.x, p.y)]) []

/-- The Z values of one (X, Y) group. -/
def groupZ (df : List Point) (k : ℚ × ℚ) : List ℚ :=
  (df.filter (fun p => decide (p.x = k.1 ∧ p.y = k.2))).map Point.z

/-- `df_unique = df.groupby(['X', 'Y'], as_index=False)['Z'].mean()`
(app.py line 139): one row per distinct (X, Y) location, Z averaged. -/
def df_unique (df : List Point) : List Point :=
  (keysOf df).map (fun k => ⟨k.1, k.2, (groupZ df k).sum / ((groupZ df k).length : ℚ)⟩)

/-- The interpolation gate (app.py line 138): `if len(df) >= 4`. Note this
tests the raw point count, before the duplicate-averaging on line 139. -/
def interp_attempted (df : List Point) : Bool := decide (4 ≤ df.length)

/-- `np.linspace(a, b, n)`: n evenly spaced samples including both endpoints
(app.py lines 140-141). -/
def linspace (a b : ℚ) (n : ℕ) : List ℚ :=
  (List.range n).map (fun i : ℕ => a + (b - a) * (i : ℚ) / ((n : ℚ) - 1))

/-- The flattened `np.meshgrid(grid_x, grid_y)` node list (app.py line 142):
every (x, y) pair of the two linspace axes; ny rows of nx nodes. -/
def grid_nodes (df : List Point) (nx ny : ℕ) : List (ℚ × ℚ) :=
  ((linspace (y_min df) (y_max df) ny).map
    (fun gy => (linspace (x_min df) (x_max df) nx).map (fun gx => (gx, gy)))).flatten

/-- `grid_z = griddata(..., (grid_x, grid_y), ...)` (app.py lines 145-147):
the interpolant evaluated at every grid node; a node outside the convex hull
is NaN (`none`). The interpolant itself is passed in as a function, since
scipy's solver is outside this repository. -/
def grid_z (f : ℚ × ℚ → Option ℚ) (df : List Point) (nx ny : ℕ) : List (Option ℚ) :=
  (grid_nodes df nx ny).map f

/-- Weighted sum `Σ wᵢ · zᵢ`. -/
def convexComb (ws zs : List ℚ) : ℚ := (List.zipWith (fun w z => w * z) ws zs).sum

/-- Modelled from the spec: the piecewise-linear fallback interpolation
(scipy `griddata` with `method='linear'`, app.py line 147) is not part of this
repository. Per the spec (§4.2, §8: "piecewise-linear", "bounded by
convex-hull data"), every defined output value is a barycentric — nonnegative
weights summing to one — combination of input depths taken from the
deduplicated input set `df_unique`. -/
def LinearInterpModel (df : List Point) (f : ℚ × ℚ → Option ℚ) : Prop :=
  ∀ node v, f node = some v →
    ∃ ws zs : List ℚ, ws.length = zs.length ∧ (∀ w ∈ ws, 0 ≤ w) ∧ ws.sum = 1 ∧
      (∀ z ∈ zs, z ∈ (df_unique df).map Point.z) ∧ v = convexComb ws zs

/-- Zero cross product test for three points in the XY plane. -/
def collinear3 (p q r : Point) : Bool :=
  decide ((q.x - p.x) * (r.y - p.y) - (q.y - p.y) * (r.x - p.x) = 0)

/-- All points of a list lie on one line in the XY plane (every triple has a
zero cross product; trivially true with fewer than 3 distinct locations). -/
def allCollinear (l : List Point) : Bool :=
  l.all (fun p => l.all (fun q => l.all (fun r => collinear3 p q r)))

/-- Modelled from the spec: scipy `griddata` (both `method='cubic'` and
`method='linear'`, app.py lines 145-147) requires a Delaunay triangulation of
the unique input locations and raises on "insufficient/degenerate geometry"
(spec §4.2, §7 InterpolationFailure): fewer than 3 unique points, or all
points collinear. -/
def delaunayOk (upts : List Point) : Bool :=
  decide (3 ≤ upts.length) && ! allCollinear upts

/-- The two uncaught exception sites of the main block:
`qhullError` — the `method='linear'` retry on line 147 raises outside any
try/except when the geometry is degenerate (the cubic failure on line 145 is
caught by the bare `except`, the linear one is not);
`nameErrorGridZ` — the export-figure preparation on lines 268-270 evaluates
`grid_z`, which was never assigned when `len(df) < 4`. -/
inductive RunError
  | qhullError
  | nameErrorGridZ
deriving DecidableEq, Repr

/-- Outcome of one run of the main block for a non-empty dataset. -/
inductive RunResult
  | ok (volumes : VolumeEstimate) (surface : List (Option ℚ))
  | error (e : RunError)
deriving DecidableEq, Repr

/-- The main block of app.py (lines 135-320) for a non-empty `df`, with the
interpolant abstracted as `interp` (it receives `df_unique`, line 145):
if `len(df) >= 4`, interpolate (both scipy methods need a triangulation of
the unique locations; when it does not exist, the cubic failure is caught and
the linear retry raises uncaught), then compute cell area and volumes and
reach the export preparation with all names defined; otherwise show the
warning and raw table (lines 262-264) and then hit the export-figure
preparation (lines 266-270), which reads the never-assigned `grid_z` and
raises NameError. -/
def runMain (df : List Point) (goc woc : ℚ)
    (interp : List Point → ℚ × ℚ → Option ℚ) : RunResult :=
  if interp_attempted df then
    if delaunayOk (df_unique df) then
      let g := grid_z (interp (df_unique df)) df 100 100
      RunResult.ok (computeVolumes g (cell_area df) goc woc) g
    else
      RunResult.error RunError.qhullError
  else
    RunResult.error RunError.nameErrorGridZ

/-- A concrete 4-point square dataset (distinct locations, depths 10-40),
used as the witness input for the surface claims. -/
def demo4 : List Point := [⟨0, 0, 10⟩, ⟨1, 0, 20⟩, ⟨0, 1, 30⟩, ⟨1, 1, 40⟩]

/-! ### Helper lemmas on running minima and maxima -/

theorem foldMin_le_init (l : List ℚ) : ∀ a : ℚ, foldMin a l ≤ a := by
  induction l with
  | nil => intro a; exact le_refl a
  | cons x t ih =>
    intro a
    exact le_trans (ih (min a x)) (min_le_left a x)

theorem foldMin_le_mem : ∀ (l : List ℚ) (a b : ℚ), b ∈ l → foldMin a l ≤ b := by
  intro l
  induction l with
  | nil => intro a b hb; cases hb
  | cons x t ih =>
    intro a b hb
    rcases List.mem_cons.1 hb with h | h
    · subst h
      exact le_trans (foldMin_le_init t (min a b)) (min_le_right a b)
    · exact ih (min a x) b h

theorem init_le_foldMax (l : List ℚ) : ∀ a : ℚ, a ≤ foldMax a l := by
  induction l with
  | nil => intro a; exact le_refl a
  | cons x t ih =>
    intro a
    exact le_trans (le_max_left a x) (ih (max a x))

theorem mem_le_foldMax : ∀ (l : List ℚ) (a b : ℚ), b ∈ l → b ≤ foldMax a l := by
  intro l
  induction l with
  | nil => intro a b hb; cases hb
  | cons x t ih =>
    intro a b hb
    rcases List.mem_cons.1 hb with h | h
    · subst h
      exact le_trans (le_max_right a b) (init_le_foldMax t (max a b))
    · exact ih (max a x) b h

theorem minOf_le_mem {l : List ℚ} {b : ℚ} (hb : b ∈ l) : minOf l ≤ b := by
  cases l with
  | nil => cases hb
  | cons a r =>
    rcases List.mem_cons.1 hb with h | h
    · subst h; exact foldMin_le_init r b
    · exact foldMin_le_mem r a b h

theorem mem_le_maxOf {l : List ℚ} {b : ℚ} (hb : b ∈ l) : b ≤ maxOf l := by
  cases l with
  | nil => cases hb
  | cons a r =>
    rcases List.mem_cons.1 hb with h | h
    · subst h; exact init_le_foldMax r b
    · exact mem_le_foldMax r a b h

theorem x_min_le_x_max (df : List Point) : x_min df ≤ x_max df := by
  cases df with
  | nil => exact le_refl 0
  | cons p r =>
    have h : p.x ∈ (p :: r).map Point.x := by simp
    exact le_trans (minOf_le_mem h) (mem_le_maxOf h)

theorem y_min_le_y_max (df : List Point) : y_min df ≤ y_max df := by
  cases df with
  | nil => exact le_refl 0
  | cons p r =>
    have h : p.y ∈ (p :: r).map Point.y := by simp
    exact le_trans (minOf_le_mem h) (mem_le_maxOf h)

theorem cell_area_nonneg (df : List Point) : 0 ≤ cell_area df := by
  unfold cell_area
  have h99 : (0 : ℚ) ≤ 100 - 1 := by norm_num
  exact mul_nonneg
    (div_nonneg (sub_nonneg.2 (x_min_le_x_max df)) h99)
    (div_nonneg (sub_nonneg.2 (y_min_le_y_max df)) h99)

/-! ### Helper lemmas on `np.nansum` of clamped thickness vectors -/

theorem nansum_thick_cons (oz : Option ℚ) (t : List (Option ℚ)) (c : ℚ) :
    nansum (thick_above (oz :: t) c) =
      (oz.map (fun z => if c - z < 0 then 0 else c - z)).getD 0 + nansum (thick_above t c) := rfl

theorem nansum_thick_nonneg (g : List (Option ℚ)) (c : ℚ) :
    0 ≤ nansum (thick_above g c) := by
  induction g with
  | nil => exact le_refl 0
  | cons oz t ih =>
    rw [nansum_thick_cons]
    have h0 : 0 ≤ (oz.map (fun z => if c - z < 0 then 0 else c - z)).getD 0 := by
      cases oz with
      | none => exact le_refl 0
      | some z =>
        show (0 : ℚ) ≤ if c - z < 0 then 0 else c - z
        split
        · exact le_refl 0
        · rename_i h; exact not_lt.mp h
    linarith

theorem nansum_thick_eq_defined (g : List (Option ℚ)) (c : ℚ) :
    nansum (thick_above g c) =
      ((g.filterMap id).map (fun z => if c - z < 0 then 0 else c - z)).sum := by
  induction g with
  | nil => rfl
  | cons oz t ih =>
    cases oz with
    | none =>
      rw [nansum_thick_cons]
      have h2 : (none :: t).filterMap (id : Option ℚ → Option ℚ) = t.filterMap id := by
        simp [List.filterMap_cons]
      rw [h2, ih]
      show (0 : ℚ) + _ = _
      rw [zero_add]
    | some z =>
      rw [nansum_thick_cons]
      have h2 : (some z :: t).filterMap (id : Option ℚ → Option ℚ) = z :: t.filterMap id := by
        simp [List.filterMap_cons]
      rw [h2, List.map_cons, List.sum_cons, ih]
      rfl

theorem nansum_thick_filterMap (g : List (Option ℚ)) (c : ℚ) :
    nansum (thick_above g c) = nansum (thick_above ((g.filterMap id).map some) c) := by
  rw [nansum_thick_eq_defined, nansum_thick_eq_defined ((g.filterMap id).map some)]
  have h : ((g.filterMap id).map some).filterMap (id : Option ℚ → Option ℚ) = g.filterMap id := by
    induction (g.filterMap id) with
    | nil => rfl
    | cons z t ih => simp [List.filterMap_cons, ih]
  rw [h]

theorem nansum_thick_no_clamp (g : List (Option ℚ)) (woc : ℚ)
    (h : ∀ z : ℚ, some z ∈ g → z < woc) :
    nansum (thick_above g woc) = ((g.filterMap id).map (fun z => woc - z)).sum := by
  induction g with
  | nil => rfl
  | cons oz t ih =>
    have ht : ∀ z : ℚ, some z ∈ t → z < woc := fun z hz => h z (List.mem_cons_of_mem _ hz)
    cases oz with
    | none =>
      rw [nansum_thick_cons]
      have h2 : (none :: t).filterMap (id : Option ℚ → Option ℚ) = t.filterMap id := by
        simp [List.filterMap_cons]
      rw [h2, ih ht]
      show (0 : ℚ) + _ = _
      rw [zero_add]
    | some z =>
      have hz : z < woc := h z (List.mem_cons_self _ _)
      have hcl : ¬ (woc - z < 0) := by linarith
      rw [nansum_thick_cons]
      have h2 : (some z :: t).filterMap (id : Option ℚ → Option ℚ) = z :: t.filterMap id := by
        simp [List.filterMap_cons]
      rw [h2, List.map_cons, List.sum_cons, ih ht]
      show (if woc - z < 0 then 0 else woc - z) + _ = _
      rw [if_neg hcl]

/-! ### Claim theorems -/

/-- C1: for every interpolated surface, grid-derived cell area, GOC and WOC,
the computed volumes satisfy `vol_gas_cap ≥ 0`, `vol_oil_zone ≥ 0`,
`vol_total_res ≥ 0`, and `vol_oil_zone = max(0, vol_total_res - vol_gas_cap)`
exactly (app.py lines 162-174). -/
theorem computeVolumes_invariants (df : List Point) (g : List (Option ℚ)) (goc woc : ℚ) :
    0 ≤ vol_gas_cap g goc (cell_area df) ∧
    0 ≤ vol_oil_zone g goc woc (cell_area df) ∧
    0 ≤ vol_total_res g woc (cell_area df) ∧
    vol_oil_zone g goc woc (cell_area df) =
      max 0 (vol_total_res g woc (cell_area df) - vol_gas_cap g goc (cell_area df)) := by
  have hca := cell_area_nonneg df
  refine ⟨?_, ?_, ?_, rfl⟩
  · exact mul_nonneg (nansum_thick_nonneg g goc) hca
  · exact le_max_left 0 _
  · exact mul_nonneg (nansum_thick_nonneg g woc) hca

/-- C2: in both volume sums, grid nodes with no depth estimate (NaN, modelled
as `none`) contribute exactly zero: each sum equals the sum taken over the
defined nodes only (they are excluded from the running total, not given a
zero depth), for every surface, cell area and pair of contact depths
(app.py lines 164-171, `np.nansum`). -/
theorem undefined_nodes_contribute_zero (g : List (Option ℚ)) (ca goc woc : ℚ) :
    vol_total_res g woc ca =
      ((g.filterMap id).map (fun z => if woc - z < 0 then 0 else woc - z)).sum * ca ∧
    vol_gas_cap g goc ca =
      ((g.filterMap id).map (fun z => if goc - z < 0 then 0 else goc - z)).sum * ca ∧
    vol_total_res g woc ca = vol_total_res ((g.filterMap id).map some) woc ca ∧
    vol_gas_cap g goc ca = vol_gas_cap ((g.filterMap id).map some) goc ca := by
  refine ⟨?_, ?_, ?_, ?_⟩
  · unfold vol_total_res; rw [nansum_thick_eq_defined]
  · unfold vol_gas_cap; rw [nansum_thick_eq_defined]
  · unfold vol_total_res; rw [nansum_thick_filterMap]
  · unfold vol_gas_cap; rw [nansum_thick_filterMap]

/-- C9: when every defined surface depth is numerically smaller than WOC (the
surface lies entirely above the contact), `vol_total_res` equals the
unclamped sum of `(WOC - Z(node)) * cell_area` over the defined nodes — the
clamping branch is never triggered (app.py lines 164-166). -/
theorem total_res_unclamped_above_woc (g : List (Option ℚ)) (woc ca : ℚ)
    (h : ∀ z : ℚ, some z ∈ g → z < woc) :
    vol_total_res g woc ca = ((g.filterMap id).map (fun z => woc - z)).sum * ca := by
  unfold vol_total_res
  rw [nansum_thick_no_clamp g woc h]

/-- Witness for C9 at a concrete surface: depths 950 and 980 with a NaN node,
WOC = 1000, cell area 2. -/
theorem total_res_unclamped_above_woc_witness :
    (∀ z : ℚ, some z ∈ [some 950, none, some 980] → z < 1000) ∧
    vol_total_res [some 950, none, some 980] 1000 2 =
      (([some (950 : ℚ), none, some 980].filterMap id).map (fun z => 1000 - z)).sum * 2 := by
  have hyp : ∀ z : ℚ, some z ∈ [some (950 : ℚ), none, some 980] → z < 1000 := by
    intro z hz
    simp only [List.mem_cons, List.not_mem_nil, or_false, Option.some.injEq,
      reduceCtorEq, false_or] at hz
    rcases hz with h | h <;> rw [h] <;> norm_num
  exact ⟨hyp, total_res_unclamped_above_woc [some 950, none, some 980] 1000 2 hyp⟩

/-! ### Helper lemmas on the groupby deduplication -/

theorem keysOf_foldl_length : ∀ (df : List Point) (acc : List (ℚ × ℚ)),
    (df.foldl (fun acc p => if (p.x, p.y) ∈ acc then acc else acc ++ [(p.x, p.y)]) acc).length
      ≤ acc.length + df.length := by
  intro df
  induction df with
  | nil => intro acc; simp
  | cons p t ih =>
    intro acc
    simp only [List.foldl_cons, List.length_cons]
    by_cases h : (p.x, p.y) ∈ acc
    · rw [if_pos h]
      have := ih acc
      omega
    · rw [if_neg h]
      have := ih (acc ++ [(p.x, p.y)])
      simp only [List.length_append, List.length_cons, List.length_nil] at this
      omega

theorem keysOf_length_le (df : List Point) : (keysOf df).length ≤ df.length := by
  have h := keysOf_foldl_length df []
  simpa [keysOf] using h

theorem df_unique_length_le (df : List Point) : (df_unique df).length ≤ df.length := by
  unfold df_unique
  rw [List.length_map]
  exact keysOf_length_le df

theorem keysOf_foldl_mem : ∀ (df : List Point) (acc : List (ℚ × ℚ)) (k : ℚ × ℚ),
    k ∈ df.foldl (fun acc p => if (p.x, p.y) ∈ acc then acc else acc ++ [(p.x, p.y)]) acc →
    k ∈ acc ∨ ∃ p ∈ df, (p.x, p.y) = k := by
  intro df
  induction df with
  | nil => intro acc k h; exact Or.inl h
  | cons q t ih =>
    intro acc k h
    simp only [List.foldl_cons] at h
    by_cases hq : (q.x, q.y) ∈ acc
    · rw [if_pos hq] at h
      rcases ih acc k h with h1 | ⟨p, hp, hpk⟩
      · exact Or.inl h1
      · exact Or.inr ⟨p, List.mem_cons_of_mem q hp, hpk⟩
    · rw [if_neg hq] at h
      rcases ih (acc ++ [(q.x, q.y)]) k h with h1 | ⟨p, hp, hpk⟩
      · rcases List.mem_append.1 h1 with h2 | h2
        · exact Or.inl h2
        · have h3 : k = (q.x, q.y) := by simpa using h2
          exact Or.inr ⟨q, List.mem_cons_self q t, h3.symm⟩
      · exact Or.inr ⟨p, List.mem_cons_of_mem q hp, hpk⟩

theorem keysOf_mem (df : List Point) (k : ℚ × ℚ) (h : k ∈ keysOf df) :
    ∃ p ∈ df, (p.x, p.y) = k := by
  rcases keysOf_foldl_mem df [] k h with h1 | h2
  · cases h1
  · exact h2

theorem groupZ_ne_nil {df : List Point} {k : ℚ × ℚ} (h : k ∈ keysOf df) :
    groupZ df k ≠ [] := by
  rcases keysOf_mem df k h with ⟨p, hp, hpk⟩
  have hx : p.x = k.1 := by rw [← hpk]
  have hy : p.y = k.2 := by rw [← hpk]
  have hfil : p ∈ df.filter (fun p => decide (p.x = k.1 ∧ p.y = k.2)) := by
    rw [List.mem_filter]
    exact ⟨hp, by simp [hx, hy]⟩
  intro hnil
  unfold groupZ at hnil
  rw [List.map_eq_nil_iff] at hnil
  rw [hnil] at hfil
  cases hfil

/-! ### Claims about the interpolation gate (C3) and the main-flow errors (C4, C5) -/

/-- C3 counterexample: four input points at one single (X, Y) location. The
raw count is 4, so the line-138 gate attempts interpolation, yet the unique
(X, Y) count after duplicate-averaging is 1 < 4 — refuting the claim that
interpolation is attempted if and only if the unique count is at least 4. -/
theorem interp_gate_unique_counterexample :
    interp_attempted [⟨0, 0, 1⟩, ⟨0, 0, 1⟩, ⟨0, 0, 1⟩, ⟨0, 0, 1⟩] = true ∧
    (df_unique [(⟨0, 0, 1⟩ : Point), ⟨0, 0, 1⟩, ⟨0, 0, 1⟩, ⟨0, 0, 1⟩]).length = 1 := by
  constructor
  · rfl
  · decide

/-- C3 as amended: the gate `if len(df) >= 4` (app.py line 138) tests the raw
point count, before duplicate-averaging: interpolation is attempted exactly
when the raw count is at least 4, and when the raw count is below 4 the
unique count is below 4 as well (so no surface is produced in that case). -/
theorem interp_gate_counts_raw (df : List Point) :
    (interp_attempted df = true ↔ 4 ≤ df.length) ∧
    (df.length < 4 → (df_unique df).length < 4) := by
  constructor
  · simp [interp_attempted]
  · intro h
    exact lt_of_le_of_lt (df_unique_length_le df) h

/-- Witness for C3's amended theorem at a concrete two-point dataset. -/
theorem interp_gate_counts_raw_witness :
    (interp_attempted [⟨0, 0, 5⟩, ⟨1, 1, 6⟩] = true ↔
      4 ≤ [(⟨0, 0, 5⟩ : Point), ⟨1, 1, 6⟩].length) ∧
    ([(⟨0, 0, 5⟩ : Point), ⟨1, 1, 6⟩].length < 4 →
      (df_unique [(⟨0, 0, 5⟩ : Point), ⟨1, 1, 6⟩]).length < 4) :=
  interp_gate_counts_raw [⟨0, 0, 5⟩, ⟨1, 1, 6⟩]

/-- C4 (code bug): for every non-empty dataset with fewer than 4 points, the
line-262 fallback shows the warning and the raw table, but the run does NOT
complete: the export-figure preparation (app.py lines 266-270) sits outside
the `len(df) >= 4` branch and evaluates `grid_z`, which was never assigned,
so the script run aborts with a NameError instead of finishing. -/
theorem data_insufficient_export_crash (df : List Point) (goc woc : ℚ)
    (interp : List Point → ℚ × ℚ → Option ℚ)
    (h0 : 0 < df.length) (h4 : df.length < 4) :
    runMain df goc woc interp = RunResult.error RunError.nameErrorGridZ := by
  unfold runMain
  have hgate : interp_attempted df = false := by
    simp [interp_attempted]
    omega
  rw [hgate]
  rfl

/-- Witness for C4 at the failing input: three points, GOC = 900, WOC = 1100. -/
theorem data_insufficient_export_crash_witness :
    0 < [(⟨0, 0, 1000⟩ : Point), ⟨1, 0, 1000⟩, ⟨0, 1, 1000⟩].length ∧
    [(⟨0, 0, 1000⟩ : Point), ⟨1, 0, 1000⟩, ⟨0, 1, 1000⟩].length < 4 ∧
    runMain [⟨0, 0, 1000⟩, ⟨1, 0, 1000⟩, ⟨0, 1, 1000⟩] 900 1100 (fun _ _ => none) =
      RunResult.error RunError.nameErrorGridZ :=
  ⟨by decide, by decide,
    data_insufficient_export_crash [⟨0, 0, 1000⟩, ⟨1, 0, 1000⟩, ⟨0, 1, 1000⟩] 900 1100
      (fun _ _ => none) (by decide) (by decide)⟩

/-- C5 counterexample: four points at one single (X, Y) location (so
X_min = X_max and Y_min = Y_max). The run halts with the uncaught scipy
triangulation failure from the linear `griddata` retry — not with any
degenerate-extent signal: the code has no DegenerateExtent error at all, and
its cell-area computation is an unchecked total expression that would have
substituted `cell_area = 0` had the run reached it. -/
theorem degenerate_extent_counterexample :
    runMain [⟨0, 0, 1000⟩, ⟨0, 0, 1000⟩, ⟨0, 0, 1000⟩, ⟨0, 0, 1000⟩] 1100 1000
        (fun _ _ => none) =
      RunResult.error RunError.qhullError ∧
    cell_area [⟨0, 0, 1000⟩, ⟨0, 0, 1000⟩, ⟨0, 0, 1000⟩, ⟨0, 0, 1000⟩] = 0 := by
  constructor
  · decide
  · unfold cell_area x_max x_min y_max y_min
    norm_num [maxOf, minOf, foldMax, foldMin]

/-- C5 as amended: for every dataset reducing to exactly one unique (X, Y)
location, no volumes are ever produced, but not through a DegenerateExtent
signal: with at least 4 raw points both `griddata` calls fail and the
uncaught linear retry halts the run before any cell area or volume is
computed; with fewer than 4 raw points the run halts at the export
preparation's NameError. -/
theorem one_unique_location_hard_stop (df : List Point) (goc woc : ℚ)
    (interp : List Point → ℚ × ℚ → Option ℚ)
    (h1 : (df_unique df).length = 1) :
    runMain df goc woc interp =
      RunResult.error
        (if 4 ≤ df.length then RunError.qhullError else RunError.nameErrorGridZ) := by
  by_cases h4 : 4 ≤ df.length
  · have hdel : delaunayOk (df_unique df) = false := by
      unfold delaunayOk
      rw [h1]
      rfl
    simp [runMain, interp_attempted, h4, hdel]
  · simp [runMain, interp_attempted, h4]

/-- Witness for C5's amended theorem at a concrete dataset: five coincident
points at (2, 3). -/
theorem one_unique_location_hard_stop_witness :
    (df_unique [(⟨2, 3, 50⟩ : Point), ⟨2, 3, 50⟩, ⟨2, 3, 50⟩, ⟨2, 3, 50⟩, ⟨2, 3, 50⟩]).length = 1 ∧
    runMain [⟨2, 3, 50⟩, ⟨2, 3, 50⟩, ⟨2, 3, 50⟩, ⟨2, 3, 50⟩, ⟨2, 3, 50⟩] 10 20 (fun _ _ => some 0) =
      RunResult.error
        (if 4 ≤ [(⟨2, 3, 50⟩ : Point), ⟨2, 3, 50⟩, ⟨2, 3, 50⟩, ⟨2, 3, 50⟩, ⟨2, 3, 50⟩].length
          then RunError.qhullError else RunError.nameErrorGridZ) :=
  ⟨by decide,
    one_unique_location_hard_stop [⟨2, 3, 50⟩, ⟨2, 3, 50⟩, ⟨2, 3, 50⟩, ⟨2, 3, 50⟩, ⟨2, 3, 50⟩]
      10 20 (fun _ _ => some 0) (by decide)⟩

/-- C6: for every input with GOC > WOC the volumetric computation proceeds
formulaically and returns a numeric result — `vol_oil_zone` is still
`max(0, total - gas)`, and it is forced to 0 whenever the gas cap exceeds the
total — the inversion is flagged by the sidebar warning (app.py lines 78-79),
and whether a run succeeds or fails is unchanged by swapping the contacts
(no exception arises from the inversion). -/
theorem inverted_contacts_formulaic (g : List (Option ℚ)) (ca goc woc : ℚ)
    (df : List Point) (interp : List Point → ℚ × ℚ → Option ℚ)
    (h : woc < goc) :
    gocWarningShown goc woc = true ∧
    (computeVolumes g ca goc woc).oilZone =
      max 0 ((computeVolumes g ca goc woc).totalReservoir -
        (computeVolumes g ca goc woc).gasCap) ∧
    ((computeVolumes g ca goc woc).totalReservoir ≤ (computeVolumes g ca goc woc).gasCap →
      (computeVolumes g ca goc woc).oilZone = 0) ∧
    (∀ e, runMain df goc woc interp = RunResult.error e ↔
      runMain df woc goc interp = RunResult.error e) := by
  refine ⟨?_, rfl, ?_, ?_⟩
  · exact decide_eq_true h
  · intro hle
    show max 0 (vol_total_res g woc ca - vol_gas_cap g goc ca) = 0
    exact max_eq_left (by exact sub_nonpos.mpr hle)
  · intro e
    unfold runMain
    cases hb : interp_attempted df
    · simp
    · cases hd : delaunayOk (df_unique df) <;> simp

/-- Witness for C6 at concrete inputs: GOC = 10, WOC = 3, one defined node. -/
theorem inverted_contacts_formulaic_witness :
    (3 : ℚ) < 10 ∧
    (gocWarningShown 10 3 = true ∧
    (computeVolumes [some 5] 1 10 3).oilZone =
      max 0 ((computeVolumes [some 5] 1 10 3).totalReservoir -
        (computeVolumes [some 5] 1 10 3).gasCap) ∧
    ((computeVolumes [some 5] 1 10 3).totalReservoir ≤ (computeVolumes [some 5] 1 10 3).gasCap →
      (computeVolumes [some 5] 1 10 3).oilZone = 0) ∧
    (∀ e, runMain [] 10 3 (fun _ _ => none) = RunResult.error e ↔
      runMain [] 3 10 (fun _ _ => none) = RunResult.error e)) :=
  ⟨by norm_num,
    inverted_contacts_formulaic [some 5] 1 10 3 [] (fun _ _ => none) (by norm_num)⟩

/-- C7 counterexample: with inverted contacts GOC = 1100 > WOC = 1000, the
point Z = 1050 satisfies Z > WOC, yet `np.select` labels it Gas Cap (the
first true condition wins), not Aquifer — refuting the claim's "Z > WOC
yields Aquifer for every pair of contacts". -/
theorem classifier_inverted_counterexample :
    (1000 : ℚ) < 1050 ∧
    fluidOf 1050 1100 1000 = FluidZoneLabel.gasCap ∧
    fluidOf 1050 1100 1000 ≠ FluidZoneLabel.aquifer := by
  have hc : fluidOf 1050 1100 1000 = FluidZoneLabel.gasCap := by
    unfold fluidOf
    rw [if_pos (by norm_num : (1050 : ℚ) < 1100)]
  refine ⟨by norm_num, hc, ?_⟩
  rw [hc]
  simp

/-- C7 as amended: the classifier is total and never yields Unknown for any
contacts, and under the intended ordering GOC ≤ WOC the three conditions are
mutually exclusive and collectively exhaustive with the stated labels:
Z < GOC ↔ GasCap, GOC ≤ Z ≤ WOC ↔ OilZone (ties inclusive), Z > WOC ↔
Aquifer. (With inverted contacts the overlap is resolved by first-match
precedence, so "Z > WOC yields Aquifer" can fail there.) -/
theorem classifier_total_exhaustive (z goc woc : ℚ) :
    fluidOf z goc woc ≠ FluidZoneLabel.unknown ∧
    (goc ≤ woc →
      ((fluidOf z goc woc = FluidZoneLabel.gasCap ↔ z < goc) ∧
       (fluidOf z goc woc = FluidZoneLabel.oilZone ↔ goc ≤ z ∧ z ≤ woc) ∧
       (fluidOf z goc woc = FluidZoneLabel.aquifer ↔ woc < z))) := by
  have hne : fluidOf z goc woc ≠ FluidZoneLabel.unknown := by
    unfold fluidOf
    split_ifs with h1 h2 h3
    · simp
    · simp
    · simp
    · exact absurd ⟨not_lt.mp h1, not_lt.mp h3⟩ h2
  refine ⟨hne, fun hgw => ⟨?_, ?_, ?_⟩⟩
  · constructor
    · intro hf
      by_contra hc
      unfold fluidOf at hf
      rw [if_neg hc] at hf
      split_ifs at hf
    · intro h1
      unfold fluidOf
      rw [if_pos h1]
  · constructor
    · intro hf
      unfold fluidOf at hf
      split_ifs at hf with h1 h2 h3
      all_goals simp_all
    · intro h2
      unfold fluidOf
      rw [if_neg (not_lt.mpr h2.1), if_pos h2]
  · constructor
    · intro hf
      unfold fluidOf at hf
      split_ifs at hf with h1 h2 h3
      all_goals simp_all
    · intro h3
      unfold fluidOf
      rw [if_neg (by intro hlt; linarith), if_neg (by rintro ⟨h5, h6⟩; linarith), if_pos h3]

/-- Witness for C7's amended theorem at Z = 500, GOC = 900, WOC = 1100. -/
theorem classifier_total_exhaustive_witness :
    fluidOf 500 900 1100 ≠ FluidZoneLabel.unknown ∧
    ((900 : ℚ) ≤ 1100 →
      ((fluidOf 500 900 1100 = FluidZoneLabel.gasCap ↔ (500 : ℚ) < 900) ∧
       (fluidOf 500 900 1100 = FluidZoneLabel.oilZone ↔ (900 : ℚ) ≤ 500 ∧ (500 : ℚ) ≤ 1100) ∧
       (fluidOf 500 900 1100 = FluidZoneLabel.aquifer ↔ (1100 : ℚ) < 500))) :=
  classifier_total_exhaustive 500 900 1100

/-- C10: with inverted contacts, a depth strictly between WOC and GOC matches
both the first (`Z < GOC`) and third (`Z > WOC`) `np.select` conditions; the
first-condition precedence labels it Gas Cap, never Aquifer, keeping the
classification single-valued. -/
theorem inverted_overlap_first_match (z goc woc : ℚ) (h1 : woc < z) (h2 : z < goc) :
    fluidOf z goc woc = FluidZoneLabel.gasCap ∧
    fluidOf z goc woc ≠ FluidZoneLabel.aquifer := by
  have h : fluidOf z goc woc = FluidZoneLabel.gasCap := by
    unfold fluidOf
    rw [if_pos h2]
  refine ⟨h, ?_⟩
  rw [h]
  simp

/-- Witness for C10 at Z = 1050 strictly between inverted contacts
GOC = 1100 and WOC = 1000. -/
theorem inverted_overlap_first_match_witness :
    (1000 : ℚ) < 1050 ∧ (1050 : ℚ) < 1100 ∧
    (fluidOf 1050 1100 1000 = FluidZoneLabel.gasCap ∧
      fluidOf 1050 1100 1000 ≠ FluidZoneLabel.aquifer) :=
  ⟨by norm_num, by norm_num, inverted_overlap_first_match 1050 1100 1000 (by norm_num) (by norm_num)⟩

/-! ### Helper lemmas for the surface bounds (C8) -/

theorem groupZ_mem_bounds {df : List Point} {k : ℚ × ℚ} {z : ℚ} (h : z ∈ groupZ df k) :
    min_z df ≤ z ∧ z ≤ max_z df := by
  unfold groupZ at h
  rcases List.mem_map.1 h with ⟨p, hp, hpz⟩
  have hpd : p ∈ df := (List.mem_filter.1 hp).1
  have hmem : z ∈ df.map Point.z := by
    rw [← hpz]
    exact List.mem_map_of_mem Point.z hpd
  exact ⟨minOf_le_mem hmem, mem_le_maxOf hmem⟩

theorem sum_bounds : ∀ (l : List ℚ) (lo hi : ℚ),
    (∀ z ∈ l, lo ≤ z ∧ z ≤ hi) →
    lo * (l.length : ℚ) ≤ l.sum ∧ l.sum ≤ hi * (l.length : ℚ) := by
  intro l
  induction l with
  | nil => intro lo hi _; simp
  | cons z t ih =>
    intro lo hi h
    have hz := h z (List.mem_cons_self z t)
    have ht := ih lo hi (fun w hw => h w (List.mem_cons_of_mem z hw))
    simp only [List.sum_cons, List.length_cons, Nat.cast_add, Nat.cast_one]
    constructor
    · have e : lo * ((t.length : ℚ) + 1) = lo * (t.length : ℚ) + lo := by ring
      rw [e]
      linarith [ht.1, hz.1]
    · have e : hi * ((t.length : ℚ) + 1) = hi * (t.length : ℚ) + hi := by ring
      rw [e]
      linarith [ht.2, hz.2]

theorem mean_bounds {l : List ℚ} {lo hi : ℚ} (hne : l ≠ [])
    (h : ∀ z ∈ l, lo ≤ z ∧ z ≤ hi) :
    lo ≤ l.sum / (l.length : ℚ) ∧ l.sum / (l.length : ℚ) ≤ hi := by
  have hpos : (0 : ℚ) < (l.length : ℚ) := by
    have h0 : 0 < l.length := List.length_pos.2 hne
    exact_mod_cast h0
  have hb := sum_bounds l lo hi h
  constructor
  · rw [le_div_iff₀ hpos]
    exact hb.1
  · rw [div_le_iff₀ hpos]
    exact hb.2

theorem df_unique_z_bounds {df : List Point} {z : ℚ}
    (hz : z ∈ (df_unique df).map Point.z) :
    min_z df ≤ z ∧ z ≤ max_z df := by
  rcases List.mem_map.1 hz with ⟨p, hp, hpz⟩
  unfold df_unique at hp
  rcases List.mem_map.1 hp with ⟨k, hk, hkp⟩
  have hne := groupZ_ne_nil hk
  have hb := mean_bounds hne (fun w hw => groupZ_mem_bounds hw)
  have hzeq : z = (groupZ df k).sum / ((groupZ df k).length : ℚ) := by
    rw [← hpz, ← hkp]
  rw [hzeq]
  exact hb

theorem convexComb_ge : ∀ (ws zs : List ℚ) (lo : ℚ),
    ws.length = zs.length → (∀ w ∈ ws, 0 ≤ w) → (∀ z ∈ zs, lo ≤ z) →
    lo * ws.sum ≤ convexComb ws zs := by
  intro ws
  induction ws with
  | nil =>
    intro zs lo _ _ _
    simp [convexComb]
  | cons w wt ih =>
    intro zs lo hlen hw hz
    cases zs with
    | nil => simp at hlen
    | cons z zt =>
      have hlen2 : wt.length = zt.length := by simpa using hlen
      have ihh := ih zt lo hlen2 (fun x hx => hw x (List.mem_cons_of_mem w hx))
        (fun x hx => hz x (List.mem_cons_of_mem z hx))
      have hw0 : 0 ≤ w := hw w (List.mem_cons_self w wt)
      have hz0 : lo ≤ z := hz z (List.mem_cons_self z zt)
      have hstep : convexComb (w :: wt) (z :: zt) = w * z + convexComb wt zt := rfl
      rw [hstep, List.sum_cons]
      have e : lo * (w + wt.sum) = lo * w + lo * wt.sum := by ring
      rw [e]
      have hwz : lo * w ≤ w * z := by nlinarith
      linarith

theorem convexComb_le : ∀ (ws zs : List ℚ) (hi : ℚ),
    ws.length = zs.length → (∀ w ∈ ws, 0 ≤ w) → (∀ z ∈ zs, z ≤ hi) →
    convexComb ws zs ≤ hi * ws.sum := by
  intro ws
  induction ws with
  | nil =>
    intro zs hi _ _ _
    simp [convexComb]
  | cons w wt ih =>
    intro zs hi hlen hw hz
    cases zs with
    | nil => simp at hlen
    | cons z zt =>
      have hlen2 : wt.length = zt.length := by simpa using hlen
      have ihh := ih zt hi hlen2 (fun x hx => hw x (List.mem_cons_of_mem w hx))
        (fun x hx => hz x (List.mem_cons_of_mem z hx))
      have hw0 : 0 ≤ w := hw w (List.mem_cons_self w wt)
      have hz0 : z ≤ hi := hz z (List.mem_cons_self z zt)
      have hstep : convexComb (w :: wt) (z :: zt) = w * z + convexComb wt zt := rfl
      rw [hstep, List.sum_cons]
      have e : hi * (w + wt.sum) = hi * w + hi * wt.sum := by ring
      rw [e]
      have hwz : w * z ≤ hi * w := by nlinarith
      linarith

theorem linspace_length (a b : ℚ) (n : ℕ) : (linspace a b n).length = n := by
  unfold linspace
  rw [List.length_map, List.length_range]

theorem sum_map_const_nat {α : Type} : ∀ (l : List α) (c : ℕ),
    (l.map (fun _ => c)).sum = l.length * c := by
  intro l c
  induction l with
  | nil => simp
  | cons x t ih =>
    simp only [List.map_cons, List.sum_cons, List.length_cons, ih]
    ring

theorem grid_nodes_length (df : List Point) (nx ny : ℕ) :
    (grid_nodes df nx ny).length = ny * nx := by
  unfold grid_nodes
  rw [List.length_flatten, List.map_map]
  have hmap : ((linspace (y_min df) (y_max df) ny).map
      (List.length ∘ fun gy => (linspace (x_min df) (x_max df) nx).map (fun gx => (gx, gy)))) =
      (linspace (y_min df) (y_max df) ny).map (fun _ => nx) := by
    apply List.map_congr_left
    intro gy _
    simp [linspace_length]
  rw [hmap, sum_map_const_nat, linspace_length]

/-- C8: for every point set with at least 4 unique (X, Y) pairs, the computed
surface has exactly nx·ny = 100·100 nodes (app.py lines 140-147), and under
the barycentric model of the fallback linear method every defined node depth
lies within `[min(inputZ), max(inputZ)]`. -/
theorem surface_node_count_and_linear_bounds (df : List Point)
    (f : ℚ × ℚ → Option ℚ)
    (h4 : 4 ≤ (df_unique df).length) (hf : LinearInterpModel df f) :
    (grid_z f df 100 100).length = 100 * 100 ∧
    ∀ v : ℚ, some v ∈ grid_z f df 100 100 → min_z df ≤ v ∧ v ≤ max_z df := by
  constructor
  · unfold grid_z
    rw [List.length_map, grid_nodes_length]
  · intro v hv
    unfold grid_z at hv
    rcases List.mem_map.1 hv with ⟨node, _, hnode⟩
    rcases hf node v hnode with ⟨ws, zs, hlen, hw, hsum, hzs, hv2⟩
    have hzb : ∀ z ∈ zs, min_z df ≤ z ∧ z ≤ max_z df :=
      fun z hz => df_unique_z_bounds (hzs z hz)
    have hge := convexComb_ge ws zs (min_z df) hlen hw (fun z hz => (hzb z hz).1)
    have hle := convexComb_le ws zs (max_z df) hlen hw (fun z hz => (hzb z hz).2)
    rw [hsum, mul_one] at hge hle
    rw [hv2]
    exact ⟨hge, hle⟩

/-- Witness for C8 at the concrete 4-point square `demo4` with a constant
interpolant `25`, itself exhibited as the barycentric combination
`(1/2)·10 + (1/2)·40` of two input depths. -/
theorem surface_node_count_and_linear_bounds_witness :
    4 ≤ (df_unique demo4).length ∧
    LinearInterpModel demo4 (fun _ => some 25) ∧
    ((grid_z (fun _ => some 25) demo4 100 100).length = 100 * 100 ∧
      ∀ v : ℚ, some v ∈ grid_z (fun _ => some 25) demo4 100 100 →
        min_z demo4 ≤ v ∧ v ≤ max_z demo4) := by
  have hzmap : (df_unique demo4).map Point.z = [10, 20, 30, 40] := by
    have hk : keysOf demo4 = [(0, 0), (1, 0), (0, 1), (1, 1)] := by decide
    have hg1 : groupZ demo4 (0, 0) = [10] := by decide
    have hg2 : groupZ demo4 (1, 0) = [20] := by decide
    have hg3 : groupZ demo4 (0, 1) = [30] := by decide
    have hg4 : groupZ demo4 (1, 1) = [40] := by decide
    unfold df_unique
    rw [hk]
    simp only [List.map_cons, List.map_nil]
    rw [hg1, hg2, hg3, hg4]
    norm_num
  have hmodel : LinearInterpModel demo4 (fun _ => some 25) := by
    intro node v hval
    have hv : v = 25 := by simpa using hval.symm
    refine ⟨[1/2, 1/2], [10, 40], rfl, ?_, by norm_num, ?_, ?_⟩
    · intro w hw
      fin_cases hw <;> norm_num
    · intro z hz
      fin_cases hz
      · rw [hzmap]
        simp
      · rw [hzmap]
        simp
    · rw [hv]
      norm_num [convexComb]
  have hlen : (df_unique demo4).length = 4 := by decide
  exact ⟨by omega, hmodel,
    surface_node_count_and_linear_bounds demo4 (fun _ => some 25) (by omega) hmodel⟩

end GeoViz
